import Mathlib

/-!
# SeleniumPage: resolving element paths against a page

A shallow embedding of `src/po/SeleniumPage.js`.  JavaScript values are
modelled by an explicit sum type, `undefined` is a value of its own, a thrown
exception or a rejected promise is the `error` side of `Except`, and the
WebDriver session is a record of functions.
-/

namespace SeleniumPage

/-- What a call can throw, or a promise be rejected with. -/
inductive Error where
  /-- The `Error` thrown by `getSelector`: "Selector type ... is not defined". -/
  | selectorType (selectorType : String)
  /-- A JavaScript `TypeError`: a method or property read on a value that has none. -/
  | typeError (message : String)
  /-- An error raised by the WebDriver session and passed through. -/
  | driver (message : String)
  deriving DecidableEq

/-- The values that flow through the resolver: `undefined`, one element, or an
array of elements. -/
inductive Value (H : Type) where
  | undefined
  | element (h : H)
  | array (hs : List H)
  deriving DecidableEq

/-- The accumulator of the `reduce` in `getElement`: the awaited root element is
a plain value, an `async` method returns a native promise, and
`driver.findElement` returns a `WebElementPromise`, which has the methods of an
element. Promises are given by what they settle to. -/
inductive Frame (H : Type) where
  | value (v : Value H)
  | promise (p : Except Error (Value H))
  | elementPromise (p : Except Error H)

/-- Modelled from the spec: the value of an exact-index token. The token type is
declared in `parseTokens.js`, which is not among the sources; the grammar gives
`index_token := INTEGER | "FIRST" | "LAST"` for an exact index. -/
inductive ExactIndex where
  | num (n : Int)
  | FIRST
  | LAST
  deriving DecidableEq

/-- Modelled from the spec: the kind of a token with its `value`, one
constructor for each of the flags `SeleniumPage.js` reads (`byExactIndex`,
`byRangeBetween`, `byRangeGreater`, `byRangeLess`, `byPartialText`,
`byExactText`, `byRegExp`); `plain` is a token whose `type` is not set. The
token type is declared in `parseTokens.js`, which is not among the sources. A
regular expression is given by its `test` method. -/
inductive TokenType where
  | plain
  | byExactIndex (value : ExactIndex)
  | byRangeBetween (startIndex endIndex : Int)
  | byRangeGreater (startIndex : Int)
  | byRangeLess (endIndex : Int)
  | byPartialText (value : String)
  | byExactText (value : String)
  | byRegExp (test : String → Bool)

/-- Modelled from the spec: a parsed path segment, with the fields
`SeleniumPage.js` reads from `elementDefiniton.token`. -/
structure Token where
  type : TokenType
  isThis : Bool
  hasAllModifier : Bool

/-- The flag `token.byIndex`. -/
def Token.byIndex (t : Token) : Bool :=
  match t.type with
  | .byExactIndex _ | .byRangeBetween _ _ | .byRangeGreater _ | .byRangeLess _ => true
  | _ => false

/-- The flag `token.byText`. -/
def Token.byText (t : Token) : Bool :=
  match t.type with
  | .byPartialText _ | .byExactText _ | .byRegExp _ => true
  | _ => false

/-- An element definition as `getElementList` hands it to the resolver. -/
structure Definition where
  selectorType : String
  selector : String
  isCollection : Bool
  token : Option Token

/-- What `getSelector` returns: a locator object `{using, value}`, or for `js`
a function that runs the definition's script. -/
inductive Selector where
  | locator (using_ : String) (value : String)
  | script (selector : String)
  deriving DecidableEq

/-- The WebDriver session: `driver.findElement`, and `findElement`,
`findElements` and `getText` of an element. -/
structure Driver (H : Type) where
  findElement : Selector → Except Error H
  elementFindElement : H → Selector → Except Error H
  elementFindElements : H → Selector → Except Error (List H)
  getText : H → Except Error String

/-- The `switch` of `getSelector`. -/
def getSelector (element : Definition) : Except Error Selector :=
  if element.selectorType = "css" then .ok (.locator "css selector" element.selector)
  else if element.selectorType = "xpath" then .ok (.locator "xpath" element.selector)
  else if element.selectorType = "js" then .ok (.script element.selector)
  else if element.selectorType = "android" then
    .ok (.locator "-android uiautomator" element.selector)
  else if element.selectorType = "ios" then .ok (.locator "-ios uiautomation" element.selector)
  else if element.selectorType = "accessibilityId" then
    .ok (.locator "accessibility id" element.selector)
  else .error (.selectorType element.selectorType)

deriving instance DecidableEq for Except

/-- An optional element as a value: nothing is `undefined`. -/
def Value.ofOption {H : Type} : Option H → Value H
  | some h => .element h
  | none => .undefined

/-- Reading `collection[k]` from an array, for an integer `k`: `undefined`
outside `0 .. length - 1`. -/
def arrayGet {H : Type} (collection : List H) (k : Int) : Value H :=
  if 0 ≤ k then Value.ofOption collection[k.toNat]? else .undefined

/-- The loop of `Array.prototype.filter`, from index `i` on. -/
def filterFrom {H : Type} (filterFn : H → Nat → Bool) : Nat → List H → List H
  | _, [] => []
  | i, x :: xs =>
    if filterFn x i then x :: filterFrom filterFn (i + 1) xs
    else filterFrom filterFn (i + 1) xs

/-- The method `Array.prototype.filter` with a callback of element and index. -/
def arrayFilter {H : Type} (collection : List H) (filterFn : H → Nat → Bool) : List H :=
  filterFrom filterFn 0 collection

/-- The method `getElementFromCollectionByExactIndex`, given `token.value`.
On an array, `'FIRST' - 1` is `NaN` and `collection[NaN]` is `undefined`; an
element has neither `length` nor indexed properties; reading a property of
`undefined` throws. -/
def getElementFromCollectionByExactIndex {H : Type} (collection : Value H)
    (value : ExactIndex) : Except Error (Value H) :=
  match collection with
  | .undefined => .error (.typeError "Cannot read properties of undefined")
  | .element _ => .ok .undefined
  | .array xs =>
    match value with
    | .LAST => .ok (arrayGet xs ((xs.length : Int) - 1))
    | .FIRST => .ok .undefined
    | .num n => .ok (arrayGet xs (n - 1))

/-- The method `getElementsFromCollectionByIndexFilter`: `collection.filter(filterFn)`,
which only an array has. -/
def getElementsFromCollectionByIndexFilter {H : Type} (collection : Value H)
    (filterFn : H → Nat → Bool) : Except Error (Value H) :=
  match collection with
  | .array xs => .ok (.array (arrayFilter xs filterFn))
  | .element _ => .error (.typeError "collection.filter is not a function")
  | .undefined => .error (.typeError "Cannot read properties of undefined")

/-- The method `String.prototype.includes`: `value` occurs in `text` as a
contiguous run of characters. -/
def includes (text value : String) : Bool :=
  decide (value.toList <:+: text.toList)

/-- Awaiting the accumulator: a plain value is itself, a promise gives what it
settled to. -/
def awaitFrame {H : Type} : Frame H → Except Error (Value H)
  | .value v => .ok v
  | .promise p => p
  | .elementPromise p => p.map Value.element

/-- The call `element.findElements(selector)` on an awaited value: only an
element has the method. -/
def valueFindElements {H : Type} (driver : Driver H) (element : Value H)
    (selector : Selector) : Except Error (Value H) :=
  match element with
  | .element h => (driver.elementFindElements h selector).map Value.array
  | .array _ => .error (.typeError "element.findElements is not a function")
  | .undefined => .error (.typeError "Cannot read properties of undefined")

/-- The call `frameworkElement.findElements(selector)` on the accumulator
itself, not awaited: a native promise has no such method, a
`WebElementPromise` has. -/
def frameFindElements {H : Type} (driver : Driver H) (frameworkElement : Frame H)
    (selector : Selector) : Except Error (Value H) :=
  match frameworkElement with
  | .value v => valueFindElements driver v selector
  | .promise _ => .error (.typeError "frameworkElement.findElements is not a function")
  | .elementPromise p =>
    match p with
    | .ok h => (driver.elementFindElements h selector).map Value.array
    | .error e => .error e

/-- The method `getRootElement`, with the `await` both callers put on its
result. Reading `isThis` of a missing token throws. -/
def getRootElement {H : Type} (driver : Driver H) (frameworkElement : Frame H)
    (elementDefiniton : Definition) : Except Error (Value H) :=
  match getSelector elementDefiniton with
  | .error e => .error e
  | .ok selector =>
    match elementDefiniton.token with
    | none => .error (.typeError "Cannot read properties of undefined")
    | some token =>
      if !token.isThis then frameFindElements driver frameworkElement selector
      else awaitFrame frameworkElement

/-- The method `getElementFromCollectionByIndex`; an index `i` of the callback
is compared with `startIndex - 1` and `endIndex - 1` as integers. -/
def getElementFromCollectionByIndex {H : Type} (driver : Driver H)
    (frameworkElement : Frame H) (elementDefiniton : Definition) : Except Error (Value H) :=
  match getRootElement driver frameworkElement elementDefiniton with
  | .error e => .error e
  | .ok collection =>
    match elementDefiniton.token with
    | none => .error (.typeError "Cannot read properties of undefined")
    | some token =>
      match token.type with
      | .byExactIndex value => getElementFromCollectionByExactIndex collection value
      | .byRangeBetween startIndex endIndex =>
        getElementsFromCollectionByIndexFilter collection
          (fun _ i => decide ((i : Int) ≥ startIndex - 1) && decide ((i : Int) ≤ endIndex - 1))
      | .byRangeGreater startIndex =>
        getElementsFromCollectionByIndexFilter collection
          (fun _ i => decide ((i : Int) > startIndex - 1))
      | .byRangeLess endIndex =>
        getElementsFromCollectionByIndexFilter collection
          (fun _ i => decide ((i : Int) < endIndex - 1))
      | _ => .ok .undefined

/-- The `for ... of` loop of `getElementByFilter` over the elements still to
visit, with `filteredCollection` as built so far. -/
def getElementByFilterLoop {H : Type} (driver : Driver H) (filterFn : String → Bool) :
    List H → List H → Except Error (List H)
  | [], filteredCollection => .ok filteredCollection
  | element :: rest, filteredCollection =>
    match driver.getText element with
    | .error e => .error e
    | .ok text =>
      getElementByFilterLoop driver filterFn rest
        (if filterFn text then filteredCollection ++ [element] else filteredCollection)

/-- The method `getElementByFilter`; only an array can be iterated. -/
def getElementByFilter {H : Type} (driver : Driver H) (collection : Value H) (isAll : Bool)
    (filterFn : String → Bool) : Except Error (Value H) :=
  match collection with
  | .array xs =>
    match getElementByFilterLoop driver filterFn xs [] with
    | .error e => .error e
    | .ok filteredCollection =>
      if isAll then .ok (.array filteredCollection) else .ok (arrayGet filteredCollection 0)
  | .element _ => .error (.typeError "collection is not iterable")
  | .undefined => .error (.typeError "collection is not iterable")

/-- The method `getElementFromCollectionByTextFilter`, given the token. -/
def getElementFromCollectionByTextFilter {H : Type} (driver : Driver H) (collection : Value H)
    (token : Token) (filterFn : String → Bool) : Except Error (Value H) :=
  getElementByFilter driver collection token.hasAllModifier filterFn

/-- The method `getElementFromCollectionByText`. -/
def getElementFromCollectionByText {H : Type} (driver : Driver H)
    (frameworkElement : Frame H) (elementDefiniton : Definition) : Except Error (Value H) :=
  match getRootElement driver frameworkElement elementDefiniton with
  | .error e => .error e
  | .ok collection =>
    match elementDefiniton.token with
    | none => .error (.typeError "Cannot read properties of undefined")
    | some token =>
      match token.type with
      | .byPartialText value =>
        getElementFromCollectionByTextFilter driver collection token
          (fun text => includes text value)
      | .byExactText value =>
        getElementFromCollectionByTextFilter driver collection token
          (fun text => decide (text = value))
      | .byRegExp test =>
        getElementFromCollectionByTextFilter driver collection token (fun text => test text)
      | _ => .ok .undefined

/-- The call `Promise.all(element.map(child => child.findElement(selector)))`. -/
def findElementOfEach {H : Type} (driver : Driver H) (selector : Selector) :
    List H → Except Error (List H)
  | [] => .ok []
  | child :: rest =>
    match driver.elementFindElement child selector with
    | .error e => .error e
    | .ok found =>
      match findElementOfEach driver selector rest with
      | .error e => .error e
      | .ok others => .ok (found :: others)

/-- The method `getChildElement`. An array has no `findElements` and no
`findElement`; its `length` is truthy when it is not empty. -/
def getChildElement {H : Type} (driver : Driver H) (frameworkElement : Frame H)
    (elementDefiniton : Definition) : Except Error (Value H) :=
  match getSelector elementDefiniton with
  | .error e => .error e
  | .ok selector =>
    match awaitFrame frameworkElement with
    | .error e => .error e
    | .ok element =>
      match elementDefiniton.token with
      | none => .error (.typeError "Cannot read properties of undefined")
      | some token =>
        if token.isThis then .ok element
        else if elementDefiniton.isCollection then valueFindElements driver element selector
        else
          match element with
          | .undefined => .error (.typeError "Cannot read properties of undefined")
          | .array [] => .error (.typeError "element.findElement is not a function")
          | .array (child :: rest) =>
            (findElementOfEach driver selector (child :: rest)).map Value.array
          | .element h => (driver.elementFindElement h selector).map Value.element

/-- The test `!elementDefiniton.token || !elementDefiniton.token.type`. -/
def hasNoTokenType (elementDefiniton : Definition) : Bool :=
  match elementDefiniton.token with
  | none => true
  | some token =>
    match token.type with
    | .plain => true
    | _ => false

/-- The method `getFrameworkElement`: one step of the path. -/
def getFrameworkElement {H : Type} (driver : Driver H) (frameworkElement : Frame H)
    (elementDefiniton : Definition) : Frame H :=
  if elementDefiniton.selectorType = "js" then
    .elementPromise
      (match getSelector elementDefiniton with
       | .error e => .error e
       | .ok selector => driver.findElement selector)
  else if hasNoTokenType elementDefiniton then
    .promise (getChildElement driver frameworkElement elementDefiniton)
  else
    match elementDefiniton.token with
    | none => .value .undefined
    | some token =>
      if token.byIndex then
        .promise (getElementFromCollectionByIndex driver frameworkElement elementDefiniton)
      else if token.byText then
        .promise (getElementFromCollectionByText driver frameworkElement elementDefiniton)
      else .value .undefined

/-- The method `getElement`, given the list `getElementList(parseTokens(path))`
of the definitions along the path. -/
def getElement {H : Type} (driver : Driver H) (elementList : List Definition) :
    Except Error (Value H) :=
  match driver.findElement (.locator "css selector" "html") with
  | .error e => .error e
  | .ok root =>
    awaitFrame (elementList.foldl (getFrameworkElement driver) (.value (.element root)))

/-- The elements a value holds: none for `undefined`, one for an element, the
members of an array. -/
def Value.handles {H : Type} : Value H → List H
  | .undefined => []
  | .element h => [h]
  | .array hs => hs

/-- A sample page for concrete runs: the root `html` element holds the list
items of `test/selenium.test.js`, each handle is named by its own text, every
selector finds all five items, and no single descendant is found. -/
def samplePage : Driver String where
  findElement := fun _ => .ok "html"
  elementFindElement := fun _ _ => .error (.driver "no such element")
  elementFindElements := fun _ _ => .ok ["First", "Second", "Third", "Third Third", "Last"]
  getText := fun h => .ok h

/-- The definition of the alias `collection` of the tests (`ol > li`), carrying
the given token. -/
def sampleCollection (token : Token) : Definition :=
  { selectorType := "css", selector := "ol > li", isCollection := true, token := some token }

/-- A plain step: a definition that is not of type `js`, whose selector type
is a recognised one, and whose token has no type set and is not `this`. -/
def PlainStep (elementDefiniton : Definition) : Prop :=
  elementDefiniton.selectorType ≠ "js"
    ∧ (∃ selector, getSelector elementDefiniton = .ok selector)
    ∧ ∃ token : Token,
        elementDefiniton.token = some token ∧ token.type = .plain ∧ token.isThis = false

/-- Follows the spec's words, not the source: descending from a handle alias by
alias. Every alias before the last is found as the single matching descendant
of the handle reached so far; the last one gives all matching descendants when
it is a collection and the single matching descendant otherwise. -/
def descendByAlias {H : Type} (driver : Driver H) : H → List Definition → Except Error (Value H)
  | scope, [] => .ok (.element scope)
  | scope, [leaf] =>
    match getSelector leaf with
    | .error e => .error e
    | .ok selector =>
      if leaf.isCollection then (driver.elementFindElements scope selector).map Value.array
      else (driver.elementFindElement scope selector).map Value.element
  | scope, alias_ :: next :: rest =>
    match getSelector alias_ with
    | .error e => .error e
    | .ok selector =>
      match driver.elementFindElement scope selector with
      | .error e => .error e
      | .ok child => descendByAlias driver child (next :: rest)

/-- A sample page of nested components for concrete runs: a handle is named by
the selectors that lead to it, a locator finds one descendant with
`findElement` and three numbered ones with `findElements`, and a script finds
nothing below an element. -/
def sampleTree : Driver String where
  findElement := fun _ => .ok "html"
  elementFindElement := fun h selector =>
    match selector with
    | .locator _ value => .ok (h ++ " " ++ value)
    | .script _ => .error (.driver "no such element")
  elementFindElements := fun h selector =>
    match selector with
    | .locator _ value =>
      .ok [h ++ " " ++ value ++ ":1", h ++ " " ++ value ++ ":2", h ++ " " ++ value ++ ":3"]
    | .script _ => .ok []
  getText := fun h => .ok h

/-- A definition with a plain token, as `defineElement`, `defineCollection` and
`defineComponent` register it in the tests (`selectorType` is `css`). -/
def samplePlain (selector : String) (isCollection : Bool) : Definition :=
  { selectorType := "css", selector := selector, isCollection := isCollection,
    token := some ⟨.plain, false, false⟩ }

/-- The predicate on an element's text that `getElementFromCollectionByText`
passes on for a text token; none for the other tokens. -/
def textFilterFn : TokenType → Option (String → Bool)
  | .byPartialText value => some (fun text => includes text value)
  | .byExactText value => some (fun text => decide (text = value))
  | .byRegExp test => some (fun text => test text)
  | _ => none

/-- The sample page of nested components when nothing on it matches a
collection: `findElements` finds no element. -/
def sampleTreeWithoutItems : Driver String :=
  { sampleTree with elementFindElements := fun _ _ => .ok [] }

/-! ## Reading an array at an index -/

theorem arrayGet_of_lt {H : Type} (xs : List H) (k : Int) (h0 : 0 ≤ k)
    (h : k.toNat < xs.length) : arrayGet xs k = .element (xs.get ⟨k.toNat, h⟩) := by
  unfold arrayGet
  rw [if_pos h0, List.getElem?_eq_getElem h]
  rfl

theorem arrayGet_of_neg {H : Type} (xs : List H) (k : Int) (h : k < 0) :
    arrayGet xs k = .undefined := by
  unfold arrayGet
  rw [if_neg (by omega)]

theorem arrayGet_of_ge {H : Type} (xs : List H) (k : Int) (h : (xs.length : Int) ≤ k) :
    arrayGet xs k = .undefined := by
  unfold arrayGet
  have h0 : (0 : Int) ≤ k := by omega
  have hlen : xs.length ≤ k.toNat := by omega
  rw [if_pos h0, List.getElem?_eq_none hlen]
  rfl

/-! ## Exact index -/

/-- C1: for an array and an integer token value `N` with `1 ≤ N ≤ length`,
`getElementFromCollectionByExactIndex` returns the element at 0-based position
`N - 1`. -/
theorem exactIndex_returns_position {H : Type} (collection : List H) (N : Int)
    (h1 : 1 ≤ N) (h2 : N ≤ collection.length) :
    ∃ h : (N - 1).toNat < collection.length,
      getElementFromCollectionByExactIndex (.array collection) (.num N)
        = .ok (.element (collection.get ⟨(N - 1).toNat, h⟩)) := by
  have h : (N - 1).toNat < collection.length := by omega
  refine ⟨h, ?_⟩
  show Except.ok (arrayGet collection (N - 1)) = _
  rw [arrayGet_of_lt collection (N - 1) (by omega) h]

theorem exactIndex_returns_position_witness :
    ∃ h : ((1 : Int) - 1).toNat < ["First", "Second", "Last"].length,
      getElementFromCollectionByExactIndex (.array ["First", "Second", "Last"]) (.num 1)
        = .ok (.element (["First", "Second", "Last"].get ⟨((1 : Int) - 1).toNat, h⟩)) :=
  exactIndex_returns_position ["First", "Second", "Last"] 1 (by decide) (by decide)

/-- C5, the code at the token value `FIRST`: on the five items of the tests the
method returns `undefined`, where the claim has the first item, the one the
token value `1` gives; the other alias, `LAST`, is interpreted and gives the
last item. So the one-step path whose exact-index token holds `FIRST` resolves
to `undefined`, and the one whose token holds `1` resolves to the first item. -/
theorem exactIndex_FIRST_not_interpreted :
    getElementFromCollectionByExactIndex
        (.array ["First", "Second", "Third", "Third Third", "Last"]) .FIRST
        = .ok .undefined
      ∧ getElementFromCollectionByExactIndex
        (.array ["First", "Second", "Third", "Third Third", "Last"]) (.num 1)
        = .ok (.element "First")
      ∧ getElementFromCollectionByExactIndex
        (.array ["First", "Second", "Third", "Third Third", "Last"]) .LAST
        = .ok (.element "Last")
      ∧ getElement samplePage [sampleCollection ⟨.byExactIndex .FIRST, false, false⟩]
        = .ok .undefined
      ∧ getElement samplePage [sampleCollection ⟨.byExactIndex (.num 1), false, false⟩]
        = .ok (.element "First") := by
  decide

/-- On a non-empty array the integer token value `1` gives the first element,
and the token value `FIRST`, for which the method has no case, gives
`undefined`. -/
theorem exactIndex_one_is_first {H : Type} (collection : List H) (h : collection ≠ []) :
    getElementFromCollectionByExactIndex (.array collection) (.num 1)
        = .ok (.element (collection.head h))
      ∧ getElementFromCollectionByExactIndex (.array collection) .FIRST = .ok .undefined := by
  cases collection with
  | nil => exact absurd rfl h
  | cons x xs =>
    refine ⟨?_, rfl⟩
    simp [getElementFromCollectionByExactIndex, arrayGet, Value.ofOption]

theorem exactIndex_one_is_first_witness :
    getElementFromCollectionByExactIndex (.array ["First", "Second", "Last"]) (.num 1)
        = .ok (.element (["First", "Second", "Last"].head (by decide)))
      ∧ getElementFromCollectionByExactIndex (.array ["First", "Second", "Last"]) .FIRST
        = .ok .undefined :=
  exactIndex_one_is_first ["First", "Second", "Last"] (by decide)

/-- C6: on a non-empty array the token value `LAST` gives the last element,
which is also what the integer token value `length` gives. -/
theorem exactIndex_LAST_is_last {H : Type} (collection : List H) (h : collection ≠ []) :
    getElementFromCollectionByExactIndex (.array collection) .LAST
        = .ok (.element (collection.getLast h))
      ∧ getElementFromCollectionByExactIndex (.array collection) .LAST
        = getElementFromCollectionByExactIndex (.array collection)
            (.num (collection.length : Int)) := by
  have hpos : 0 < collection.length := List.length_pos.mpr h
  have hlt : ((collection.length : Int) - 1).toNat < collection.length := by omega
  refine ⟨?_, rfl⟩
  show Except.ok (arrayGet collection ((collection.length : Int) - 1)) = _
  rw [arrayGet_of_lt collection _ (by omega) hlt, List.getLast_eq_getElem]
  have hidx : ((collection.length : Int) - 1).toNat = collection.length - 1 := by omega
  simp [List.get_eq_getElem, hidx]

theorem exactIndex_LAST_is_last_witness :
    getElementFromCollectionByExactIndex (.array ["First", "Second", "Last"]) .LAST
        = .ok (.element (["First", "Second", "Last"].getLast (by decide)))
      ∧ getElementFromCollectionByExactIndex (.array ["First", "Second", "Last"]) .LAST
        = getElementFromCollectionByExactIndex (.array ["First", "Second", "Last"])
            (.num (["First", "Second", "Last"].length : Int)) :=
  exactIndex_LAST_is_last ["First", "Second", "Last"] (by decide)

/-- C10, as stated, fails: an index above the length, an index below one, and
`LAST` on the empty array all return `undefined`, and none of them is an error. -/
theorem exactIndex_outOfRange_counterexample :
    getElementFromCollectionByExactIndex (.array ["First", "Second"]) (.num 3)
        = .ok .undefined
      ∧ getElementFromCollectionByExactIndex (.array ["First", "Second"]) (.num 0)
        = .ok .undefined
      ∧ getElementFromCollectionByExactIndex (.array ([] : List String)) .LAST
        = .ok .undefined
      ∧ ¬ ∃ e, getElementFromCollectionByExactIndex (.array ["First", "Second"]) (.num 3)
        = .error e := by
  refine ⟨by decide, by decide, by decide, ?_⟩
  rintro ⟨e, he⟩
  cases he

/-- C10, amended: for an array and an exact-index token value that is out of
range (an integer `N < 1` or `N > length`, or `LAST` on the empty array) the
method returns `undefined`; it raises no error. -/
theorem exactIndex_outOfRange_undefined {H : Type} (collection : List H) (N : Int)
    (h : N < 1 ∨ (collection.length : Int) < N) :
    getElementFromCollectionByExactIndex (.array collection) (.num N) = .ok .undefined
      ∧ getElementFromCollectionByExactIndex (.array ([] : List H)) .LAST = .ok .undefined := by
  refine ⟨?_, rfl⟩
  show Except.ok (arrayGet collection (N - 1)) = _
  rcases h with h | h
  · rw [arrayGet_of_neg collection (N - 1) (by omega)]
  · rw [arrayGet_of_ge collection (N - 1) (by omega)]

theorem exactIndex_outOfRange_undefined_witness :
    getElementFromCollectionByExactIndex (.array ["First", "Second"]) (.num 3)
        = .ok .undefined
      ∧ getElementFromCollectionByExactIndex (.array ([] : List String)) .LAST
        = .ok .undefined :=
  exactIndex_outOfRange_undefined ["First", "Second"] 3 (Or.inr (by decide))

/-! ## Range filters -/

theorem filterFrom_between {H : Type} (s e : Int) (xs : List H) (k : Nat) :
    filterFrom (fun _ i => decide ((i : Int) ≥ s - 1) && decide ((i : Int) ≤ e - 1)) k xs
      = (xs.take (e - k).toNat).drop (s - 1 - k).toNat := by
  induction xs generalizing k with
  | nil => simp [filterFrom]
  | cons x xs ih =>
    rw [filterFrom, ih (k + 1)]
    simp only [Nat.cast_add, Nat.cast_one]
    by_cases he : (k : Int) ≤ e - 1
    · obtain ⟨m, hm⟩ : ∃ m, (e - k).toNat = m + 1 := ⟨(e - k).toNat - 1, by omega⟩
      have hm' : (e - ((k : Int) + 1)).toNat = m := by omega
      rw [hm, hm', List.take_succ_cons]
      by_cases hs : (k : Int) ≥ s - 1
      · have h0 : (s - 1 - (k : Int)).toNat = 0 := by omega
        have h0' : (s - 1 - ((k : Int) + 1)).toNat = 0 := by omega
        simp [hs, he, h0, h0']
      · obtain ⟨d, hd⟩ : ∃ d, (s - 1 - (k : Int)).toNat = d + 1 :=
          ⟨(s - 1 - (k : Int)).toNat - 1, by omega⟩
        have hd' : (s - 1 - ((k : Int) + 1)).toNat = d := by omega
        simp [hs, hd, hd']
    · have h0 : (e - (k : Int)).toNat = 0 := by omega
      have h0' : (e - ((k : Int) + 1)).toNat = 0 := by omega
      simp [he, h0, h0']

theorem filterFrom_greater {H : Type} (s : Int) (xs : List H) (k : Nat) :
    filterFrom (fun _ i => decide ((i : Int) > s - 1)) k xs = xs.drop (s - k).toNat := by
  induction xs generalizing k with
  | nil => simp [filterFrom]
  | cons x xs ih =>
    rw [filterFrom, ih (k + 1)]
    simp only [Nat.cast_add, Nat.cast_one]
    by_cases hs : (k : Int) > s - 1
    · have h0 : (s - (k : Int)).toNat = 0 := by omega
      have h0' : (s - ((k : Int) + 1)).toNat = 0 := by omega
      simp [hs, h0, h0']
    · obtain ⟨d, hd⟩ : ∃ d, (s - (k : Int)).toNat = d + 1 := ⟨(s - (k : Int)).toNat - 1, by omega⟩
      have hd' : (s - ((k : Int) + 1)).toNat = d := by omega
      simp [hs, hd, hd']

theorem filterFrom_less {H : Type} (e : Int) (xs : List H) (k : Nat) :
    filterFrom (fun _ i => decide ((i : Int) < e - 1)) k xs = xs.take (e - 1 - k).toNat := by
  induction xs generalizing k with
  | nil => simp [filterFrom]
  | cons x xs ih =>
    rw [filterFrom, ih (k + 1)]
    simp only [Nat.cast_add, Nat.cast_one]
    by_cases he : (k : Int) < e - 1
    · obtain ⟨m, hm⟩ : ∃ m, (e - 1 - (k : Int)).toNat = m + 1 :=
        ⟨(e - 1 - (k : Int)).toNat - 1, by omega⟩
      have hm' : (e - 1 - ((k : Int) + 1)).toNat = m := by omega
      simp [he, hm, hm']
    · have h0 : (e - 1 - (k : Int)).toNat = 0 := by omega
      have h0' : (e - 1 - ((k : Int) + 1)).toNat = 0 := by omega
      simp [he, h0, h0']

/-- C2: when the root collection is an array and `1 ≤ a ≤ b ≤ length`, the
`byRangeBetween` branch of `getElementFromCollectionByIndex` returns the
`b - a + 1` elements at the 1-based positions `a .. b`, in their order: the
slice that skips `a - 1` elements and keeps the next `b - a + 1`. -/
theorem rangeBetween_is_slice {H : Type} (driver : Driver H) (frameworkElement : Frame H)
    (elementDefiniton : Definition) (token : Token) (collection : List H) (a b : Nat)
    (hroot : getRootElement driver frameworkElement elementDefiniton = .ok (.array collection))
    (htoken : elementDefiniton.token = some token)
    (htype : token.type = .byRangeBetween (a : Int) (b : Int))
    (ha : 1 ≤ a) (hab : a ≤ b) (hb : b ≤ collection.length) :
    getElementFromCollectionByIndex driver frameworkElement elementDefiniton
        = .ok (.array ((collection.drop (a - 1)).take (b - a + 1)))
      ∧ ((collection.drop (a - 1)).take (b - a + 1)).length = b - a + 1
      ∧ ∀ i, i < b - a + 1 →
          ((collection.drop (a - 1)).take (b - a + 1))[i]? = collection[a - 1 + i]? := by
  refine ⟨?_, ?_, ?_⟩
  · have hcut : (collection.take b).drop (a - 1) = (collection.drop (a - 1)).take (b - a + 1) := by
      rw [List.drop_take]
      congr 1
      omega
    have h1 : ((b : Int) - ((0 : Nat) : Int)).toNat = b := by omega
    have h2 : ((a : Int) - 1 - ((0 : Nat) : Int)).toNat = a - 1 := by omega
    unfold getElementFromCollectionByIndex
    rw [hroot]
    simp only [htoken, htype, getElementsFromCollectionByIndexFilter, arrayFilter]
    rw [filterFrom_between, h1, h2, hcut]
  · rw [List.length_take, List.length_drop]
    omega
  · intro i hi
    rw [List.getElem?_take_of_lt hi, List.getElem?_drop]

theorem rangeBetween_is_slice_witness :
    getElementFromCollectionByIndex samplePage (.value (.element "html"))
        (sampleCollection ⟨.byRangeBetween ((2 : Nat) : Int) ((3 : Nat) : Int), false, false⟩)
        = .ok (.array
            ((["First", "Second", "Third", "Third Third", "Last"].drop (2 - 1)).take (3 - 2 + 1)))
      ∧ ((["First", "Second", "Third", "Third Third", "Last"].drop (2 - 1)).take
            (3 - 2 + 1)).length = 3 - 2 + 1
      ∧ ∀ i, i < 3 - 2 + 1 →
          ((["First", "Second", "Third", "Third Third", "Last"].drop (2 - 1)).take (3 - 2 + 1))[i]?
            = ["First", "Second", "Third", "Third Third", "Last"][2 - 1 + i]? :=
  rangeBetween_is_slice samplePage (.value (.element "html"))
    (sampleCollection ⟨.byRangeBetween ((2 : Nat) : Int) ((3 : Nat) : Int), false, false⟩)
    ⟨.byRangeBetween ((2 : Nat) : Int) ((3 : Nat) : Int), false, false⟩
    ["First", "Second", "Third", "Third Third", "Last"] 2 3 rfl rfl rfl
    (by decide) (by decide) (by decide)

/-- C7: when the root collection is an array and `0 ≤ n ≤ length`, the
`byRangeGreater` branch with `startIndex = n` returns the elements at 1-based
positions above `n`, in their order; the first `n` elements followed by the
result are the whole collection, and the two parts share no position. -/
theorem rangeGreater_is_rest {H : Type} (driver : Driver H) (frameworkElement : Frame H)
    (elementDefiniton : Definition) (token : Token) (collection : List H) (n : Nat)
    (hroot : getRootElement driver frameworkElement elementDefiniton = .ok (.array collection))
    (htoken : elementDefiniton.token = some token)
    (htype : token.type = .byRangeGreater (n : Int))
    (hn : n ≤ collection.length) :
    getElementFromCollectionByIndex driver frameworkElement elementDefiniton
        = .ok (.array (collection.drop n))
      ∧ (∀ i, (collection.drop n)[i]? = collection[n + i]?)
      ∧ collection.take n ++ collection.drop n = collection
      ∧ (collection.take n).length = n
      ∧ (collection.take n).length + (collection.drop n).length = collection.length := by
  refine ⟨?_, ?_, List.take_append_drop n collection, ?_, ?_⟩
  · have h1 : ((n : Int) - ((0 : Nat) : Int)).toNat = n := by omega
    unfold getElementFromCollectionByIndex
    rw [hroot]
    simp only [htoken, htype, getElementsFromCollectionByIndexFilter, arrayFilter]
    rw [filterFrom_greater, h1]
  · intro i
    rw [List.getElem?_drop]
  · rw [List.length_take]
    omega
  · rw [List.length_take, List.length_drop]
    omega

theorem rangeGreater_is_rest_witness :
    getElementFromCollectionByIndex samplePage (.value (.element "html"))
        (sampleCollection ⟨.byRangeGreater ((1 : Nat) : Int), false, false⟩)
        = .ok (.array (["First", "Second", "Third", "Third Third", "Last"].drop 1))
      ∧ (∀ i, (["First", "Second", "Third", "Third Third", "Last"].drop 1)[i]?
            = ["First", "Second", "Third", "Third Third", "Last"][1 + i]?)
      ∧ ["First", "Second", "Third", "Third Third", "Last"].take 1
            ++ ["First", "Second", "Third", "Third Third", "Last"].drop 1
          = ["First", "Second", "Third", "Third Third", "Last"]
      ∧ (["First", "Second", "Third", "Third Third", "Last"].take 1).length = 1
      ∧ (["First", "Second", "Third", "Third Third", "Last"].take 1).length
            + (["First", "Second", "Third", "Third Third", "Last"].drop 1).length
          = ["First", "Second", "Third", "Third Third", "Last"].length :=
  rangeGreater_is_rest samplePage (.value (.element "html"))
    (sampleCollection ⟨.byRangeGreater ((1 : Nat) : Int), false, false⟩)
    ⟨.byRangeGreater ((1 : Nat) : Int), false, false⟩
    ["First", "Second", "Third", "Third Third", "Last"] 1 rfl rfl rfl (by decide)

/-- C8: when the root collection is an array and `n ≥ 1`, the `byRangeLess`
branch with `endIndex = n` returns the elements at 0-based indices below
`n - 1`, in their order, `min (n - 1) length` of them; the result followed by
the elements from 1-based position `n` on is the whole collection, and the two
parts share no position. -/
theorem rangeLess_is_front {H : Type} (driver : Driver H) (frameworkElement : Frame H)
    (elementDefiniton : Definition) (token : Token) (collection : List H) (n : Nat)
    (hroot : getRootElement driver frameworkElement elementDefiniton = .ok (.array collection))
    (htoken : elementDefiniton.token = some token)
    (htype : token.type = .byRangeLess (n : Int))
    (hn : 1 ≤ n) :
    getElementFromCollectionByIndex driver frameworkElement elementDefiniton
        = .ok (.array (collection.take (n - 1)))
      ∧ (∀ i, i < n - 1 → (collection.take (n - 1))[i]? = collection[i]?)
      ∧ (collection.take (n - 1)).length = min (n - 1) collection.length
      ∧ collection.take (n - 1) ++ collection.drop (n - 1) = collection
      ∧ (collection.take (n - 1)).length + (collection.drop (n - 1)).length
          = collection.length := by
  refine ⟨?_, ?_, List.length_take _ _, List.take_append_drop (n - 1) collection, ?_⟩
  · have h1 : ((n : Int) - 1 - ((0 : Nat) : Int)).toNat = n - 1 := by omega
    unfold getElementFromCollectionByIndex
    rw [hroot]
    simp only [htoken, htype, getElementsFromCollectionByIndexFilter, arrayFilter]
    rw [filterFrom_less, h1]
  · intro i hi
    rw [List.getElem?_take_of_lt hi]
  · rw [List.length_take, List.length_drop]
    omega

theorem rangeLess_is_front_witness :
    getElementFromCollectionByIndex samplePage (.value (.element "html"))
        (sampleCollection ⟨.byRangeLess ((3 : Nat) : Int), false, false⟩)
        = .ok (.array (["First", "Second", "Third", "Third Third", "Last"].take (3 - 1)))
      ∧ (∀ i, i < 3 - 1 → (["First", "Second", "Third", "Third Third", "Last"].take (3 - 1))[i]?
            = ["First", "Second", "Third", "Third Third", "Last"][i]?)
      ∧ (["First", "Second", "Third", "Third Third", "Last"].take (3 - 1)).length
          = min (3 - 1) ["First", "Second", "Third", "Third Third", "Last"].length
      ∧ ["First", "Second", "Third", "Third Third", "Last"].take (3 - 1)
            ++ ["First", "Second", "Third", "Third Third", "Last"].drop (3 - 1)
          = ["First", "Second", "Third", "Third Third", "Last"]
      ∧ (["First", "Second", "Third", "Third Third", "Last"].take (3 - 1)).length
            + (["First", "Second", "Third", "Third Third", "Last"].drop (3 - 1)).length
          = ["First", "Second", "Third", "Third Third", "Last"].length :=
  rangeLess_is_front samplePage (.value (.element "html"))
    (sampleCollection ⟨.byRangeLess ((3 : Nat) : Int), false, false⟩)
    ⟨.byRangeLess ((3 : Nat) : Int), false, false⟩
    ["First", "Second", "Third", "Third Third", "Last"] 3 rfl rfl rfl (by decide)

/-! ## Text filters -/

theorem arrayGet_zero {H : Type} (xs : List H) : arrayGet xs 0 = Value.ofOption xs.head? := by
  cases xs <;> simp [arrayGet]

theorem getElementByFilterLoop_ok {H : Type} (driver : Driver H) (filterFn : String → Bool)
    (text : H → String) (xs : List H) (filteredCollection : List H)
    (htext : ∀ e ∈ xs, driver.getText e = .ok (text e)) :
    getElementByFilterLoop driver filterFn xs filteredCollection
      = .ok (filteredCollection ++ xs.filter (fun e => filterFn (text e))) := by
  induction xs generalizing filteredCollection with
  | nil => simp [getElementByFilterLoop]
  | cons x xs ih =>
    have hx : driver.getText x = .ok (text x) := htext x (List.mem_cons_self x xs)
    have hxs : ∀ e ∈ xs, driver.getText e = .ok (text e) :=
      fun e he => htext e (List.mem_cons_of_mem x he)
    unfold getElementByFilterLoop
    rw [hx]
    simp only []
    rw [ih _ hxs]
    by_cases hf : filterFn (text x) = true
    · simp [hf]
    · simp [hf]

theorem getElementByFilter_ok {H : Type} (driver : Driver H) (filterFn : String → Bool)
    (text : H → String) (xs : List H) (isAll : Bool)
    (htext : ∀ e ∈ xs, driver.getText e = .ok (text e)) :
    getElementByFilter driver (.array xs) isAll filterFn
      = if isAll then .ok (.array (xs.filter (fun e => filterFn (text e))))
        else .ok (Value.ofOption (xs.filter (fun e => filterFn (text e))).head?) := by
  unfold getElementByFilter
  simp only []
  rw [getElementByFilterLoop_ok driver filterFn text xs [] htext]
  simp only [List.nil_append, arrayGet_zero]

/-- C3: when the text of every element of the array can be read,
`getElementByFilter` with `isAll = true` returns all elements whose text
satisfies the predicate, in their order; with `isAll = false` it returns the
head of that list, and `undefined` when no element matches. So the second
result holds at most one element and never more than the first. -/
theorem getElementByFilter_all_and_first {H : Type} (driver : Driver H) (collection : List H)
    (text : H → String) (filterFn : String → Bool)
    (htext : ∀ e ∈ collection, driver.getText e = .ok (text e)) :
    getElementByFilter driver (.array collection) true filterFn
        = .ok (.array (collection.filter (fun e => filterFn (text e))))
      ∧ getElementByFilter driver (.array collection) false filterFn
        = .ok (Value.ofOption (collection.filter (fun e => filterFn (text e))).head?)
      ∧ ((∀ e ∈ collection, filterFn (text e) = false) →
          getElementByFilter driver (.array collection) false filterFn = .ok .undefined)
      ∧ (Value.ofOption (collection.filter (fun e => filterFn (text e))).head?).handles.length ≤ 1
      ∧ (Value.ofOption (collection.filter (fun e => filterFn (text e))).head?).handles.length
          ≤ (Value.array (collection.filter (fun e => filterFn (text e)))).handles.length := by
  have hall := getElementByFilter_ok driver filterFn text collection true htext
  have hfirst := getElementByFilter_ok driver filterFn text collection false htext
  simp only [if_true] at hall
  simp only [Bool.false_eq_true, if_false] at hfirst
  refine ⟨hall, hfirst, ?_, ?_, ?_⟩
  · intro hnone
    rw [hfirst]
    have hnil : collection.filter (fun e => filterFn (text e)) = [] := by
      rw [List.filter_eq_nil_iff]
      intro e he
      simp [hnone e he]
    rw [hnil]
    rfl
  · cases collection.filter (fun e => filterFn (text e)) <;> simp [Value.ofOption, Value.handles]
  · cases collection.filter (fun e => filterFn (text e)) <;> simp [Value.ofOption, Value.handles]

theorem getElementByFilter_all_and_first_witness :
    getElementByFilter samplePage
        (.array ["First", "Second", "Third", "Third Third", "Last"]) true
        (fun t => includes t "Third")
        = .ok (.array (["First", "Second", "Third", "Third Third", "Last"].filter
            (fun e => (fun t => includes t "Third") ((fun h => h) e))))
      ∧ getElementByFilter samplePage
        (.array ["First", "Second", "Third", "Third Third", "Last"]) false
        (fun t => includes t "Third")
        = .ok (Value.ofOption (["First", "Second", "Third", "Third Third", "Last"].filter
            (fun e => (fun t => includes t "Third") ((fun h => h) e))).head?)
      ∧ ((∀ e ∈ ["First", "Second", "Third", "Third Third", "Last"],
            (fun t => includes t "Third") ((fun h => h) e) = false) →
          getElementByFilter samplePage
            (.array ["First", "Second", "Third", "Third Third", "Last"]) false
            (fun t => includes t "Third") = .ok .undefined)
      ∧ (Value.ofOption (["First", "Second", "Third", "Third Third", "Last"].filter
            (fun e => (fun t => includes t "Third") ((fun h => h) e))).head?).handles.length ≤ 1
      ∧ (Value.ofOption (["First", "Second", "Third", "Third Third", "Last"].filter
            (fun e => (fun t => includes t "Third") ((fun h => h) e))).head?).handles.length
          ≤ (Value.array (["First", "Second", "Third", "Third Third", "Last"].filter
            (fun e => (fun t => includes t "Third") ((fun h => h) e)))).handles.length :=
  getElementByFilter_all_and_first samplePage ["First", "Second", "Third", "Third Third", "Last"]
    (fun h => h) (fun t => includes t "Third") (fun _ _ => rfl)

theorem getRootElement_token_type {H : Type} (driver : Driver H) (frameworkElement : Frame H)
    (selectorType selector : String) (isCollection : Bool) (type type' : TokenType)
    (isThis hasAllModifier hasAllModifier' : Bool) :
    getRootElement driver frameworkElement
        ⟨selectorType, selector, isCollection, some ⟨type, isThis, hasAllModifier⟩⟩
      = getRootElement driver frameworkElement
        ⟨selectorType, selector, isCollection, some ⟨type', isThis, hasAllModifier'⟩⟩ := by
  simp only [getRootElement, getSelector]

theorem includes_self_of_eq (text value : String) (h : decide (text = value) = true) :
    includes text value = true := by
  have ht : text = value := of_decide_eq_true h
  subst ht
  simp [includes]

/-- C9: for a definition whose root collection is an array with readable texts
and a string `v`, the `all` exact-text step and the `all` partial-text step each
return an array; every element of the first is in the second, and the first is
a sublist of the second, so the order is kept. -/
theorem exactText_within_partialText {H : Type} (driver : Driver H)
    (frameworkElement : Frame H) (selectorType selector : String) (isCollection isThis : Bool)
    (v : String) (collection : List H) (text : H → String)
    (hroot : getRootElement driver frameworkElement
        ⟨selectorType, selector, isCollection, some ⟨.byExactText v, isThis, true⟩⟩
      = .ok (.array collection))
    (htext : ∀ e ∈ collection, driver.getText e = .ok (text e)) :
    getElementFromCollectionByText driver frameworkElement
        ⟨selectorType, selector, isCollection, some ⟨.byExactText v, isThis, true⟩⟩
        = .ok (.array (collection.filter (fun e => decide (text e = v))))
      ∧ getElementFromCollectionByText driver frameworkElement
        ⟨selectorType, selector, isCollection, some ⟨.byPartialText v, isThis, true⟩⟩
        = .ok (.array (collection.filter (fun e => includes (text e) v)))
      ∧ (∀ e ∈ collection.filter (fun e => decide (text e = v)),
          e ∈ collection.filter (fun e => includes (text e) v))
      ∧ (collection.filter (fun e => decide (text e = v))).Sublist
          (collection.filter (fun e => includes (text e) v)) := by
  have hroot' := hroot
  rw [getRootElement_token_type driver frameworkElement selectorType selector isCollection
    (.byExactText v) (.byPartialText v) isThis true true] at hroot'
  have hsub : (collection.filter (fun e => decide (text e = v))).Sublist
      (collection.filter (fun e => includes (text e) v)) := by
    have hboth : collection.filter (fun e => decide (text e = v))
        = (collection.filter (fun e => includes (text e) v)).filter
            (fun e => decide (text e = v)) := by
      rw [List.filter_filter]
      apply List.filter_congr
      intro e _
      by_cases h : decide (text e = v) = true
      · simp [h, includes_self_of_eq (text e) v h]
      · simp [h]
    rw [hboth]
    exact List.filter_sublist _
  refine ⟨?_, ?_, fun e he => hsub.subset he, hsub⟩
  · unfold getElementFromCollectionByText
    rw [hroot]
    simp only [getElementFromCollectionByTextFilter]
    rw [getElementByFilter_ok driver _ text collection true htext]
    simp
  · unfold getElementFromCollectionByText
    rw [hroot']
    simp only [getElementFromCollectionByTextFilter]
    rw [getElementByFilter_ok driver _ text collection true htext]
    simp

theorem exactText_within_partialText_witness :
    getElementFromCollectionByText samplePage (.value (.element "html"))
        ⟨"css", "ol > li", true, some ⟨.byExactText "Third", false, true⟩⟩
        = .ok (.array (["First", "Second", "Third", "Third Third", "Last"].filter
            (fun e => decide ((fun h => h) e = "Third"))))
      ∧ getElementFromCollectionByText samplePage (.value (.element "html"))
        ⟨"css", "ol > li", true, some ⟨.byPartialText "Third", false, true⟩⟩
        = .ok (.array (["First", "Second", "Third", "Third Third", "Last"].filter
            (fun e => includes ((fun h => h) e) "Third")))
      ∧ (∀ e ∈ ["First", "Second", "Third", "Third Third", "Last"].filter
            (fun e => decide ((fun h => h) e = "Third")),
          e ∈ ["First", "Second", "Third", "Third Third", "Last"].filter
            (fun e => includes ((fun h => h) e) "Third"))
      ∧ (["First", "Second", "Third", "Third Third", "Last"].filter
            (fun e => decide ((fun h => h) e = "Third"))).Sublist
          (["First", "Second", "Third", "Third Third", "Last"].filter
            (fun e => includes ((fun h => h) e) "Third")) :=
  exactText_within_partialText samplePage (.value (.element "html")) "css" "ol > li" true false
    "Third" ["First", "Second", "Third", "Third Third", "Last"] (fun h => h) rfl
    (fun _ _ => rfl)

/-! ## A step over `this` -/

theorem awaitFrame_promise {H : Type} (p : Except Error (Value H)) :
    awaitFrame (Frame.promise p) = p := rfl

theorem getFrameworkElement_this_exactIndex {H : Type} (driver : Driver H) (T : Definition)
    (selectorT : Selector) (value : ExactIndex) (hasAllModifier : Bool)
    (hjs : T.selectorType ≠ "js") (hsel : getSelector T = .ok selectorT)
    (htoken : T.token = some ⟨.byExactIndex value, true, hasAllModifier⟩) (previous : Frame H) :
    awaitFrame (getFrameworkElement driver previous T)
      = (awaitFrame previous).bind
          (fun scope => getElementFromCollectionByExactIndex scope value) := by
  unfold getFrameworkElement
  rw [if_neg hjs]
  simp only [hasNoTokenType, htoken, Token.byIndex, Bool.false_eq_true, if_false, if_true,
    awaitFrame_promise]
  unfold getElementFromCollectionByIndex getRootElement
  simp only [hsel, htoken, Bool.not_true, Bool.false_eq_true, if_false]
  cases awaitFrame previous <;> rfl

theorem getFrameworkElement_text_on_root {H : Type} (driver : Driver H) (Y : Definition)
    (root : H) (selectorY : Selector) (ys : List H) (text : H → String) (a : String)
    (isAll : Bool)
    (hjs : Y.selectorType ≠ "js") (hsel : getSelector Y = .ok selectorY)
    (hfind : driver.elementFindElements root selectorY = .ok ys)
    (htext : ∀ e ∈ ys, driver.getText e = .ok (text e))
    (htoken : Y.token = some ⟨.byPartialText a, false, isAll⟩) :
    awaitFrame (getFrameworkElement driver (.value (.element root)) Y)
      = if isAll then .ok (.array (ys.filter (fun e => includes (text e) a)))
        else .ok (Value.ofOption (ys.filter (fun e => includes (text e) a)).head?) := by
  unfold getFrameworkElement
  rw [if_neg hjs]
  simp only [hasNoTokenType, htoken, Token.byIndex, Token.byText, Bool.false_eq_true, if_false,
    if_true, awaitFrame_promise]
  unfold getElementFromCollectionByText getRootElement
  simp only [hsel, htoken, Bool.not_false, if_true, frameFindElements, valueFindElements, hfind,
    Except.map, getElementFromCollectionByTextFilter]
  rw [getElementByFilter_ok driver _ text ys isAll htext]

/-- C4: the two steps `all #a in Y` and `#1 of this`, resolved from the root
element, give the first of the elements of `Y` whose text contains `a`, in
their order; the single step `#a in Y` gives the same. The step over `this`
finds nothing anew: whatever the step before it produced, it reads position 1
of that scope. -/
theorem this_step_reads_previous_scope {H : Type} (driver : Driver H) (Y T : Definition)
    (root : H) (selectorY selectorT : Selector) (ys : List H) (text : H → String) (a : String)
    (hasAllModifier : Bool)
    (hroot : driver.findElement (.locator "css selector" "html") = .ok root)
    (hYjs : Y.selectorType ≠ "js") (hYsel : getSelector Y = .ok selectorY)
    (hfind : driver.elementFindElements root selectorY = .ok ys)
    (htext : ∀ e ∈ ys, driver.getText e = .ok (text e))
    (hYtoken : Y.token = some ⟨.byPartialText a, false, true⟩)
    (hTjs : T.selectorType ≠ "js") (hTsel : getSelector T = .ok selectorT)
    (hTtoken : T.token = some ⟨.byExactIndex (.num 1), true, hasAllModifier⟩) :
    getElement driver [Y, T]
        = .ok (Value.ofOption (ys.filter (fun e => includes (text e) a)).head?)
      ∧ getElement driver [{ Y with token := some ⟨.byPartialText a, false, false⟩ }]
        = getElement driver [Y, T]
      ∧ ∀ previous : Frame H,
          awaitFrame (getFrameworkElement driver previous T)
            = (awaitFrame previous).bind
                (fun scope => getElementFromCollectionByExactIndex scope (.num 1)) := by
  have hthis := getFrameworkElement_this_exactIndex driver T selectorT (.num 1) hasAllModifier
    hTjs hTsel hTtoken
  have hall := getFrameworkElement_text_on_root driver Y root selectorY ys text a true
    hYjs hYsel hfind htext hYtoken
  have hone := getFrameworkElement_text_on_root driver
    { Y with token := some ⟨.byPartialText a, false, false⟩ } root selectorY ys text a false
    hYjs (by simpa only [getSelector] using hYsel) hfind htext rfl
  simp only [if_true] at hall
  simp only [Bool.false_eq_true, if_false] at hone
  have htwo : getElement driver [Y, T]
      = .ok (Value.ofOption (ys.filter (fun e => includes (text e) a)).head?) := by
    unfold getElement
    rw [hroot]
    simp only [List.foldl_cons, List.foldl_nil]
    rw [hthis, hall]
    simp only [Except.bind, getElementFromCollectionByExactIndex, sub_self, arrayGet_zero]
  refine ⟨htwo, ?_, hthis⟩
  rw [htwo]
  unfold getElement
  rw [hroot]
  simp only [List.foldl_cons, List.foldl_nil]
  exact hone

theorem this_step_reads_previous_scope_witness :
    getElement samplePage
        [sampleCollection ⟨.byPartialText "Third", false, true⟩,
         sampleCollection ⟨.byExactIndex (.num 1), true, false⟩]
        = .ok (Value.ofOption (["First", "Second", "Third", "Third Third", "Last"].filter
            (fun e => includes ((fun h => h) e) "Third")).head?)
      ∧ getElement samplePage
        [{ sampleCollection ⟨.byPartialText "Third", false, true⟩ with
            token := some ⟨.byPartialText "Third", false, false⟩ }]
        = getElement samplePage
            [sampleCollection ⟨.byPartialText "Third", false, true⟩,
             sampleCollection ⟨.byExactIndex (.num 1), true, false⟩]
      ∧ ∀ previous : Frame String,
          awaitFrame (getFrameworkElement samplePage previous
              (sampleCollection ⟨.byExactIndex (.num 1), true, false⟩))
            = (awaitFrame previous).bind
                (fun scope => getElementFromCollectionByExactIndex scope (.num 1)) :=
  this_step_reads_previous_scope samplePage
    (sampleCollection ⟨.byPartialText "Third", false, true⟩)
    (sampleCollection ⟨.byExactIndex (.num 1), true, false⟩)
    "html" (.locator "css selector" "ol > li") (.locator "css selector" "ol > li")
    ["First", "Second", "Third", "Third Third", "Last"] (fun h => h) "Third" false
    rfl (by decide) rfl rfl (fun _ _ => rfl) rfl (by decide) rfl rfl

/-! ## Selectors -/

/-- C11: `getSelector` throws exactly when `selectorType` is none of `css`,
`xpath`, `js`, `android`, `ios`, `accessibilityId`; for the five types other
than `js` it returns a locator that carries the definition's selector
unchanged, with a strategy tag that any definition of the same `selectorType`
gets as well. -/
theorem getSelector_fails_iff_unknown (element : Definition) :
    ((∃ e, getSelector element = .error e)
        ↔ element.selectorType ∉ ["css", "xpath", "js", "android", "ios", "accessibilityId"])
      ∧ (element.selectorType ∈ ["css", "xpath", "android", "ios", "accessibilityId"] →
          ∃ tag, getSelector element = .ok (.locator tag element.selector)
            ∧ ∀ other : Definition, other.selectorType = element.selectorType →
                getSelector other = .ok (.locator tag other.selector))
      ∧ (element.selectorType = "css" →
          getSelector element = .ok (.locator "css selector" element.selector))
      ∧ (element.selectorType = "xpath" →
          getSelector element = .ok (.locator "xpath" element.selector))
      ∧ (element.selectorType = "android" →
          getSelector element = .ok (.locator "-android uiautomator" element.selector))
      ∧ (element.selectorType = "ios" →
          getSelector element = .ok (.locator "-ios uiautomation" element.selector))
      ∧ (element.selectorType = "accessibilityId" →
          getSelector element = .ok (.locator "accessibility id" element.selector)) := by
  have hcss : element.selectorType = "css" →
      getSelector element = .ok (.locator "css selector" element.selector) := by
    intro h
    simp [getSelector, h]
  have hxpath : element.selectorType = "xpath" →
      getSelector element = .ok (.locator "xpath" element.selector) := by
    intro h
    simp [getSelector, h]
  have handroid : element.selectorType = "android" →
      getSelector element = .ok (.locator "-android uiautomator" element.selector) := by
    intro h
    simp [getSelector, h]
  have hios : element.selectorType = "ios" →
      getSelector element = .ok (.locator "-ios uiautomation" element.selector) := by
    intro h
    simp [getSelector, h]
  have hacc : element.selectorType = "accessibilityId" →
      getSelector element = .ok (.locator "accessibility id" element.selector) := by
    intro h
    simp [getSelector, h]
  refine ⟨?_, ?_, hcss, hxpath, handroid, hios, hacc⟩
  · unfold getSelector
    simp only [List.mem_cons, List.mem_singleton, List.not_mem_nil, or_false, not_or]
    split_ifs with h1 h2 h3 h4 h5 h6
    all_goals simp [*]
  · intro hmem
    simp only [List.mem_cons, List.mem_singleton, List.not_mem_nil, or_false] at hmem
    rcases hmem with h | h | h | h | h
    · exact ⟨"css selector", hcss h, fun other ho => by simp [getSelector, ho, h]⟩
    · exact ⟨"xpath", hxpath h, fun other ho => by simp [getSelector, ho, h]⟩
    · exact ⟨"-android uiautomator", handroid h, fun other ho => by simp [getSelector, ho, h]⟩
    · exact ⟨"-ios uiautomation", hios h, fun other ho => by simp [getSelector, ho, h]⟩
    · exact ⟨"accessibility id", hacc h, fun other ho => by simp [getSelector, ho, h]⟩

/-! ## Plain steps -/

theorem getFrameworkElement_plain {H : Type} (driver : Driver H) (frameworkElement : Frame H)
    (d : Definition) (hplain : PlainStep d) :
    getFrameworkElement driver frameworkElement d
      = .promise (getChildElement driver frameworkElement d) := by
  obtain ⟨hjs, _, token, htoken, htype, _⟩ := hplain
  unfold getFrameworkElement
  rw [if_neg hjs]
  simp [hasNoTokenType, htoken, htype]

theorem getChildElement_on_element {H : Type} (driver : Driver H) (frameworkElement : Frame H)
    (scope : H) (d : Definition) (selector : Selector)
    (hscope : awaitFrame frameworkElement = .ok (.element scope)) (hplain : PlainStep d)
    (hsel : getSelector d = .ok selector) :
    getChildElement driver frameworkElement d
      = if d.isCollection then (driver.elementFindElements scope selector).map Value.array
        else (driver.elementFindElement scope selector).map Value.element := by
  obtain ⟨_, _, token, htoken, _, hthis⟩ := hplain
  unfold getChildElement
  simp only [hsel, hscope, htoken, hthis, Bool.false_eq_true, if_false, valueFindElements]

theorem getChildElement_on_error {H : Type} (driver : Driver H) (frameworkElement : Frame H)
    (err : Error) (d : Definition)
    (hfail : awaitFrame frameworkElement = .error err) (hplain : PlainStep d) :
    getChildElement driver frameworkElement d = .error err := by
  obtain ⟨_, ⟨selector, hsel⟩, _⟩ := hplain
  unfold getChildElement
  simp only [hsel, hfail]

theorem foldl_plain_on_error {H : Type} (driver : Driver H) (err : Error)
    (path : List Definition) (frameworkElement : Frame H)
    (hfail : awaitFrame frameworkElement = .error err) (hplain : ∀ d ∈ path, PlainStep d) :
    awaitFrame (path.foldl (getFrameworkElement driver) frameworkElement) = .error err := by
  induction path generalizing frameworkElement with
  | nil => exact hfail
  | cons d rest ih =>
    rw [List.foldl_cons]
    apply ih
    · rw [getFrameworkElement_plain driver frameworkElement d (hplain d (List.mem_cons_self d rest)),
        awaitFrame_promise]
      exact getChildElement_on_error driver frameworkElement err d hfail
        (hplain d (List.mem_cons_self d rest))
    · exact fun e he => hplain e (List.mem_cons_of_mem d he)

theorem foldl_plain_descends {H : Type} (driver : Driver H) (path : List Definition)
    (frameworkElement : Frame H) (scope : H)
    (hscope : awaitFrame frameworkElement = .ok (.element scope))
    (hplain : ∀ d ∈ path, PlainStep d)
    (hsingle : ∀ d ∈ path.dropLast, d.isCollection = false) :
    awaitFrame (path.foldl (getFrameworkElement driver) frameworkElement)
      = descendByAlias driver scope path := by
  induction path generalizing frameworkElement scope with
  | nil => exact hscope
  | cons d rest ih =>
    have hd : PlainStep d := hplain d (List.mem_cons_self d rest)
    obtain ⟨selector, hsel⟩ := hd.2.1
    have hstep := getChildElement_on_element driver frameworkElement scope d selector hscope hd hsel
    rw [List.foldl_cons, getFrameworkElement_plain driver frameworkElement d hd]
    cases rest with
    | nil =>
      rw [List.foldl_nil, awaitFrame_promise, hstep]
      simp only [descendByAlias, hsel]
    | cons next rest' =>
      have hrest : ∀ e ∈ next :: rest', PlainStep e := fun e he => hplain e (List.mem_cons_of_mem d he)
      have hnot : d.isCollection = false := hsingle d (by simp [List.dropLast])
      have hsingle' : ∀ e ∈ (next :: rest').dropLast, e.isCollection = false := by
        intro e he
        apply hsingle e
        rw [List.dropLast_cons₂]
        exact List.mem_cons_of_mem d he
      rw [hnot] at hstep
      simp only [Bool.false_eq_true, if_false] at hstep
      rw [hstep]
      simp only [descendByAlias, hsel]
      cases hfind : driver.elementFindElement scope selector with
      | error err =>
        exact foldl_plain_on_error driver err (next :: rest') _ (by simp [awaitFrame, Except.map])
          hrest
      | ok child =>
        exact ih _ child (by simp [awaitFrame, Except.map]) hrest hsingle'

/-- C12, amended: on a scope that is a single handle, `getChildElement` with a
plain step returns all matching descendants of the scope when the definition
is a collection and the single matching descendant otherwise. So a path of
plain steps of which none before the last is a collection resolves from the
root as the descent alias by alias does: an array or a single handle as the
last definition's `isCollection` says. -/
theorem plain_steps_descend {H : Type} (driver : Driver H) (frameworkElement : Frame H)
    (scope : H) (d : Definition) (selector : Selector) (root : H) (path : List Definition)
    (hscope : awaitFrame frameworkElement = .ok (.element scope)) (hd : PlainStep d)
    (hsel : getSelector d = .ok selector)
    (hroot : driver.findElement (.locator "css selector" "html") = .ok root)
    (hplain : ∀ e ∈ path, PlainStep e)
    (hsingle : ∀ e ∈ path.dropLast, e.isCollection = false) :
    getChildElement driver frameworkElement d
        = (if d.isCollection then (driver.elementFindElements scope selector).map Value.array
           else (driver.elementFindElement scope selector).map Value.element)
      ∧ getElement driver path = descendByAlias driver root path := by
  refine ⟨getChildElement_on_element driver frameworkElement scope d selector hscope hd hsel, ?_⟩
  unfold getElement
  rw [hroot]
  exact foldl_plain_descends driver path _ root rfl hplain hsingle

theorem plain_steps_descend_witness :
    getChildElement sampleTree (.value (.element "html")) (samplePlain ".single-element" false)
        = (if (samplePlain ".single-element" false).isCollection then
            (sampleTree.elementFindElements "html"
              (.locator "css selector" ".single-element")).map Value.array
           else (sampleTree.elementFindElement "html"
              (.locator "css selector" ".single-element")).map Value.element)
      ∧ getElement sampleTree [samplePlain ".container" false, samplePlain ".child-item" false]
        = descendByAlias sampleTree "html"
            [samplePlain ".container" false, samplePlain ".child-item" false] :=
  plain_steps_descend sampleTree (.value (.element "html")) "html"
    (samplePlain ".single-element" false) (.locator "css selector" ".single-element") "html"
    [samplePlain ".container" false, samplePlain ".child-item" false]
    rfl ⟨by decide, ⟨_, rfl⟩, ⟨_, rfl, rfl, rfl⟩⟩ rfl rfl
    (by
      intro e he
      simp only [List.mem_cons, List.mem_singleton, List.not_mem_nil, or_false] at he
      rcases he with rfl | rfl <;> exact ⟨by decide, ⟨_, rfl⟩, ⟨_, rfl, rfl, rfl⟩⟩)
    (by
      intro e he
      simp only [List.dropLast, List.mem_singleton] at he
      rw [he]
      rfl)


/-- C12, as stated, fails: on the plain path component, collection of
components, element inside them, the last definition is not a collection, yet
`getElement` returns an array with one descendant for each of the three
components and not a single handle; the descent alias by alias gives a single
handle there. -/
theorem plain_path_through_collection_counterexample :
    (∀ e ∈ [samplePlain ".list-components" false, samplePlain ".l-component" true,
          samplePlain "div" false],
        e.selectorType ≠ "js" ∧ getSelector e = .ok (.locator "css selector" e.selector)
          ∧ e.token = some ⟨.plain, false, false⟩)
      ∧ (samplePlain "div" false).isCollection = false
      ∧ getElement sampleTree
          [samplePlain ".list-components" false, samplePlain ".l-component" true,
           samplePlain "div" false]
        = .ok (.array ["html .list-components .l-component:1 div",
            "html .list-components .l-component:2 div",
            "html .list-components .l-component:3 div"])
      ∧ descendByAlias sampleTree "html"
          [samplePlain ".list-components" false, samplePlain ".l-component" true,
           samplePlain "div" false]
        = .ok (.element "html .list-components .l-component div")
      ∧ getElement sampleTree
          [samplePlain ".list-components" false, samplePlain ".l-component" true,
           samplePlain "div" false]
        ≠ descendByAlias sampleTree "html"
          [samplePlain ".list-components" false, samplePlain ".l-component" true,
           samplePlain "div" false] := by
  refine ⟨?_, rfl, by decide, by decide, by decide⟩
  intro e he
  simp only [List.mem_cons, List.mem_singleton, List.not_mem_nil, or_false] at he
  rcases he with rfl | rfl | rfl <;> exact ⟨by decide, rfl, rfl⟩


/-! ## Steps on an array scope -/

theorem getChildElement_collection_on_array {H : Type} (driver : Driver H)
    (frameworkElement : Frame H) (scope : List H) (d : Definition)
    (hscope : awaitFrame frameworkElement = .ok (.array scope)) (hplain : PlainStep d)
    (hcollection : d.isCollection = true) :
    getChildElement driver frameworkElement d
      = .error (.typeError "element.findElements is not a function") := by
  obtain ⟨_, ⟨selector, hsel⟩, token, htoken, _, hthis⟩ := hplain
  unfold getChildElement
  simp only [hsel, hscope, htoken, hthis, hcollection, Bool.false_eq_true, if_false, if_true,
    valueFindElements]

theorem findElementOfEach_ok {H : Type} (driver : Driver H) (selector : Selector)
    (found : H → H) (scope : List H)
    (hfound : ∀ child ∈ scope, driver.elementFindElement child selector = .ok (found child)) :
    findElementOfEach driver selector scope = .ok (scope.map found) := by
  induction scope with
  | nil => rfl
  | cons child rest ih =>
    unfold findElementOfEach
    rw [hfound child (List.mem_cons_self child rest),
      ih (fun c hc => hfound c (List.mem_cons_of_mem child hc))]
    rfl

theorem getChildElement_single_on_array {H : Type} (driver : Driver H)
    (frameworkElement : Frame H) (scope : List H) (d : Definition) (selector : Selector)
    (found : H → H)
    (hscope : awaitFrame frameworkElement = .ok (.array scope)) (hne : scope ≠ [])
    (hplain : PlainStep d) (hsel : getSelector d = .ok selector)
    (hsingle : d.isCollection = false)
    (hfound : ∀ child ∈ scope, driver.elementFindElement child selector = .ok (found child)) :
    getChildElement driver frameworkElement d = .ok (.array (scope.map found)) := by
  obtain ⟨_, _, token, htoken, _, hthis⟩ := hplain
  unfold getChildElement
  simp only [hsel, hscope, htoken, hthis, hsingle, Bool.false_eq_true, if_false]
  cases scope with
  | nil => exact absurd rfl hne
  | cons child rest =>
    simp only [findElementOfEach_ok driver selector found (child :: rest) hfound]
    rfl

theorem getChildElement_single_on_empty_array {H : Type} (driver : Driver H)
    (frameworkElement : Frame H) (d : Definition)
    (hscope : awaitFrame frameworkElement = .ok (.array [])) (hplain : PlainStep d)
    (hsingle : d.isCollection = false) :
    getChildElement driver frameworkElement d
      = .error (.typeError "element.findElement is not a function") := by
  obtain ⟨_, ⟨selector, hsel⟩, token, htoken, _, hthis⟩ := hplain
  unfold getChildElement
  simp only [hsel, hscope, htoken, hthis, hsingle, Bool.false_eq_true, if_false]

/-- C13, the code at an array scope with a collection definition: the step
calls `findElements` on the array itself and is rejected with a `TypeError`;
the path component, collection of components, collection inside them fails the
same way, where the claim has the nine matching descendants in scope order. -/
theorem collection_step_on_array_scope_rejected :
    getChildElement sampleTree
        (.promise (.ok (.array ["html .l-component:1", "html .l-component:2"])))
        (samplePlain "div" true)
        = .error (.typeError "element.findElements is not a function")
      ∧ getElement sampleTree
        [samplePlain ".list-components" false, samplePlain ".l-component" true,
         samplePlain "div" true]
        = .error (.typeError "element.findElements is not a function") := by
  decide

/-- C15, the code at an empty array scope with a definition that is not a
collection: the `length` of the empty array is falsy, so the step calls
`findElement` on the array itself and is rejected with a `TypeError`, where
the claim has the empty array; on the array of three components the step
returns the three descendants in scope order. -/
theorem single_step_on_empty_array_scope_rejected :
    getChildElement sampleTree (.promise (.ok (.array []))) (samplePlain "div" false)
        = .error (.typeError "element.findElement is not a function")
      ∧ getElement sampleTreeWithoutItems
        [samplePlain ".list-components" false, samplePlain ".l-component" true,
         samplePlain "div" false]
        = .error (.typeError "element.findElement is not a function")
      ∧ getElement sampleTree
        [samplePlain ".list-components" false, samplePlain ".l-component" true,
         samplePlain "div" false]
        = .ok (.array ["html .list-components .l-component:1 div",
            "html .list-components .l-component:2 div",
            "html .list-components .l-component:3 div"]) := by
  decide

/-! ## Index and text steps after another step -/

theorem getRootElement_on_promise {H : Type} (driver : Driver H) (p : Except Error (Value H))
    (d : Definition) (selector : Selector) (token : Token)
    (hsel : getSelector d = .ok selector) (htoken : d.token = some token)
    (hthis : token.isThis = false) :
    getRootElement driver (.promise p) d
      = .error (.typeError "frameworkElement.findElements is not a function") := by
  unfold getRootElement
  simp only [hsel, htoken, hthis, Bool.not_false, if_true, frameFindElements]

theorem getFrameworkElement_index_after_plain {H : Type} (driver : Driver H)
    (frameworkElement : Frame H) (X Y : Definition) (selector : Selector) (token : Token)
    (hX : PlainStep X) (hYjs : Y.selectorType ≠ "js") (hsel : getSelector Y = .ok selector)
    (htoken : Y.token = some token) (hthis : token.isThis = false)
    (hindex : token.byIndex = true) :
    awaitFrame (getFrameworkElement driver (getFrameworkElement driver frameworkElement X) Y)
      = .error (.typeError "frameworkElement.findElements is not a function") := by
  rw [getFrameworkElement_plain driver frameworkElement X hX]
  have hno : hasNoTokenType Y = false := by
    unfold hasNoTokenType
    rw [htoken]
    unfold Token.byIndex at hindex
    cases htype : token.type <;> simp_all
  unfold getFrameworkElement
  rw [if_neg hYjs, hno]
  simp only [Bool.false_eq_true, if_false, htoken, hindex, if_true, awaitFrame_promise]
  unfold getElementFromCollectionByIndex
  rw [getRootElement_on_promise driver _ Y selector token hsel htoken hthis]

/-- C16, the code at a two-step path of a plain step and an exact-index step
on a collection: the second step calls `findElements` on the promise the first
step returned and is rejected with a `TypeError`, where the claim has the
second of the items under the container; as the first step of a path the same
index step returns the second item. -/
theorem index_step_after_plain_step_rejected :
    getElement sampleTree
        [samplePlain ".container" false, sampleCollection ⟨.byExactIndex (.num 2), false, false⟩]
        = .error (.typeError "frameworkElement.findElements is not a function")
      ∧ getElement sampleTree [samplePlain ".container" false]
        = .ok (.element "html .container")
      ∧ getElementFromCollectionByIndex sampleTree (.value (.element "html .container"))
          (sampleCollection ⟨.byExactIndex (.num 2), false, false⟩)
        = .ok (.element "html .container ol > li:2")
      ∧ getElement sampleTree [sampleCollection ⟨.byExactIndex (.num 2), false, false⟩]
        = .ok (.element "html ol > li:2") := by
  decide

/-! ## Text steps along a path -/

theorem getFrameworkElement_text_step {H : Type} (driver : Driver H) (frameworkElement : Frame H)
    (d : Definition) (token : Token) (fn : String → Bool)
    (hjs : d.selectorType ≠ "js") (htoken : d.token = some token)
    (hfn : textFilterFn token.type = some fn) :
    awaitFrame (getFrameworkElement driver frameworkElement d)
      = (getRootElement driver frameworkElement d).bind
          (fun collection => getElementByFilter driver collection token.hasAllModifier fn) := by
  unfold getFrameworkElement
  rw [if_neg hjs]
  unfold getElementFromCollectionByText
  cases hroot : getRootElement driver frameworkElement d with
  | error err =>
    cases htype : token.type <;>
      simp_all [textFilterFn, hasNoTokenType, Token.byIndex, Token.byText, awaitFrame,
        Except.bind]
  | ok collection =>
    cases htype : token.type <;>
      simp_all [textFilterFn, hasNoTokenType, Token.byIndex, Token.byText, awaitFrame,
        Except.bind, getElementFromCollectionByTextFilter]

theorem getRootElement_on_root {H : Type} (driver : Driver H) (root : H) (d : Definition)
    (selector : Selector) (token : Token) (ys : List H)
    (hsel : getSelector d = .ok selector) (htoken : d.token = some token)
    (hthis : token.isThis = false)
    (hfind : driver.elementFindElements root selector = .ok ys) :
    getRootElement driver (.value (.element root)) d = .ok (.array ys) := by
  unfold getRootElement
  simp only [hsel, htoken, hthis, Bool.not_false, if_true, frameFindElements, valueFindElements,
    hfind, Except.map]

theorem getRootElement_on_this {H : Type} (driver : Driver H) (frameworkElement : Frame H)
    (d : Definition) (selector : Selector) (token : Token)
    (hsel : getSelector d = .ok selector) (htoken : d.token = some token)
    (hthis : token.isThis = true) :
    getRootElement driver frameworkElement d = awaitFrame frameworkElement := by
  unfold getRootElement
  simp only [hsel, htoken, hthis, Bool.not_true, Bool.false_eq_true, if_false]

/-- C14, as stated, fails: the path `#zzz in collection`, whose single-match
text step finds no item containing `zzz`, resolves to `undefined`; it is not
rejected with any error. -/
theorem text_step_without_match_counterexample :
    getElement samplePage [sampleCollection ⟨.byPartialText "zzz", false, false⟩]
        = .ok .undefined
      ∧ ¬ ∃ e, getElement samplePage [sampleCollection ⟨.byPartialText "zzz", false, false⟩]
        = .error e := by
  have hrun : getElement samplePage [sampleCollection ⟨.byPartialText "zzz", false, false⟩]
      = .ok .undefined := by decide
  refine ⟨hrun, ?_⟩
  rintro ⟨e, he⟩
  rw [hrun] at he
  cases he

/-- C14, amended: for a path that ends in a text step of single cardinality
whose collection is an array with readable texts and no element satisfying the
text predicate, `getElement` returns `undefined`; it raises no error. -/
theorem text_step_without_match_undefined {H : Type} (driver : Driver H)
    (steps : List Definition) (Y : Definition) (root : H) (ys : List H) (text : H → String)
    (token : Token) (fn : String → Bool)
    (hroot : driver.findElement (.locator "css selector" "html") = .ok root)
    (hjs : Y.selectorType ≠ "js") (htoken : Y.token = some token)
    (hfn : textFilterFn token.type = some fn) (hsingle : token.hasAllModifier = false)
    (hcollection : getRootElement driver
        (steps.foldl (getFrameworkElement driver) (.value (.element root))) Y = .ok (.array ys))
    (htext : ∀ e ∈ ys, driver.getText e = .ok (text e))
    (hnone : ∀ e ∈ ys, fn (text e) = false) :
    getElement driver (steps ++ [Y]) = .ok .undefined := by
  have hnil : ys.filter (fun e => fn (text e)) = [] := by
    rw [List.filter_eq_nil_iff]
    intro e he
    simp [hnone e he]
  unfold getElement
  rw [hroot]
  simp only [List.foldl_append, List.foldl_cons, List.foldl_nil]
  rw [getFrameworkElement_text_step driver _ Y token fn hjs htoken hfn, hcollection, hsingle]
  simp only [Except.bind]
  rw [getElementByFilter_ok driver fn text ys false htext, hnil]
  rfl

theorem text_step_without_match_undefined_witness :
    getElement samplePage ([] ++ [sampleCollection ⟨.byPartialText "zzz", false, false⟩])
      = .ok .undefined :=
  text_step_without_match_undefined samplePage []
    (sampleCollection ⟨.byPartialText "zzz", false, false⟩) "html"
    ["First", "Second", "Third", "Third Third", "Last"] (fun h => h)
    ⟨.byPartialText "zzz", false, false⟩ (fun t => includes t "zzz")
    rfl (by decide) rfl rfl rfl rfl (fun _ _ => rfl) (by decide)

/-! ## Chained filters -/

/-- C17: with readable texts, filtering `all` by `f` and the result `all` by
`g` is filtering `all` by `f` and `g` together. In particular the path of an
`all` partial-text step for `v` on a collection and an `all` exact-text step
for `v` over `this` resolves to what the single `all` exact-text step for `v`
on the collection resolves to: the elements whose text is `v`, in order. -/
theorem all_filters_compose {H : Type} (driver : Driver H) (collection : List H)
    (text : H → String) (f g : String → Bool) (Y T : Definition) (root : H)
    (selectorY selectorT : Selector) (ys : List H) (v : String)
    (hcollection : ∀ e ∈ collection, driver.getText e = .ok (text e))
    (hroot : driver.findElement (.locator "css selector" "html") = .ok root)
    (hYjs : Y.selectorType ≠ "js") (hYsel : getSelector Y = .ok selectorY)
    (hfind : driver.elementFindElements root selectorY = .ok ys)
    (htext : ∀ e ∈ ys, driver.getText e = .ok (text e))
    (hYtoken : Y.token = some ⟨.byPartialText v, false, true⟩)
    (hTjs : T.selectorType ≠ "js") (hTsel : getSelector T = .ok selectorT)
    (hTtoken : T.token = some ⟨.byExactText v, true, true⟩) :
    (getElementByFilter driver (.array collection) true f).bind
          (fun filtered => getElementByFilter driver filtered true g)
        = getElementByFilter driver (.array collection) true (fun x => f x && g x)
      ∧ getElement driver [Y, T]
        = getElement driver [{ Y with token := some ⟨.byExactText v, false, true⟩ }]
      ∧ getElement driver [Y, T] = .ok (.array (ys.filter (fun e => decide (text e = v)))) := by
  have hsub : ∀ (p : H → Bool) (xs : List H), (∀ e ∈ xs, driver.getText e = .ok (text e)) →
      ∀ e ∈ xs.filter p, driver.getText e = .ok (text e) :=
    fun p xs hxs e he => hxs e (List.mem_of_mem_filter he)
  have hleft : getElement driver [Y, T]
      = .ok (.array (ys.filter (fun e => decide (text e = v)))) := by
    unfold getElement
    rw [hroot]
    simp only [List.foldl_cons, List.foldl_nil]
    rw [getFrameworkElement_text_step driver _ T ⟨.byExactText v, true, true⟩
        (fun t => decide (t = v)) hTjs hTtoken rfl,
      getRootElement_on_this driver _ T selectorT _ hTsel hTtoken rfl,
      getFrameworkElement_text_step driver _ Y ⟨.byPartialText v, false, true⟩
        (fun t => includes t v) hYjs hYtoken rfl,
      getRootElement_on_root driver root Y selectorY _ ys hYsel hYtoken rfl hfind]
    simp only [Except.bind]
    rw [getElementByFilter_ok driver _ text ys true htext]
    simp only [if_true]
    rw [getElementByFilter_ok driver _ text _ true (hsub _ ys htext)]
    simp only [if_true, List.filter_filter]
    congr 2
    apply List.filter_congr
    intro e _
    by_cases h : decide (text e = v) = true
    · simp [h, includes_self_of_eq (text e) v h]
    · simp [h]
  refine ⟨?_, ?_, hleft⟩
  · rw [getElementByFilter_ok driver f text collection true hcollection]
    simp only [if_true, Except.bind]
    rw [getElementByFilter_ok driver g text _ true (hsub _ collection hcollection),
      getElementByFilter_ok driver _ text collection true hcollection]
    simp only [if_true, List.filter_filter]
    congr 2
    apply List.filter_congr
    intro e _
    exact Bool.and_comm _ _
  · rw [hleft]
    unfold getElement
    rw [hroot]
    simp only [List.foldl_cons, List.foldl_nil]
    rw [getFrameworkElement_text_step driver _ { Y with token := some ⟨.byExactText v, false, true⟩ }
        ⟨.byExactText v, false, true⟩ (fun t => decide (t = v)) hYjs rfl rfl,
      getRootElement_on_root driver root { Y with token := some ⟨.byExactText v, false, true⟩ }
        selectorY _ ys (by simpa only [getSelector] using hYsel) rfl rfl hfind]
    simp only [Except.bind]
    rw [getElementByFilter_ok driver _ text ys true htext]
    simp only [if_true]

theorem all_filters_compose_witness :
    (getElementByFilter samplePage
          (.array ["First", "Second", "Third", "Third Third", "Last"]) true
          (fun t => includes t "Third")).bind
          (fun filtered => getElementByFilter samplePage filtered true
            (fun t => decide (t = "Third")))
        = getElementByFilter samplePage
          (.array ["First", "Second", "Third", "Third Third", "Last"]) true
          (fun x => (fun t => includes t "Third") x && (fun t => decide (t = "Third")) x)
      ∧ getElement samplePage
          [sampleCollection ⟨.byPartialText "Third", false, true⟩,
           sampleCollection ⟨.byExactText "Third", true, true⟩]
        = getElement samplePage
          [{ sampleCollection ⟨.byPartialText "Third", false, true⟩ with
              token := some ⟨.byExactText "Third", false, true⟩ }]
      ∧ getElement samplePage
          [sampleCollection ⟨.byPartialText "Third", false, true⟩,
           sampleCollection ⟨.byExactText "Third", true, true⟩]
        = .ok (.array (["First", "Second", "Third", "Third Third", "Last"].filter
            (fun e => decide ((fun h => h) e = "Third")))) :=
  all_filters_compose samplePage ["First", "Second", "Third", "Third Third", "Last"]
    (fun h => h) (fun t => includes t "Third") (fun t => decide (t = "Third"))
    (sampleCollection ⟨.byPartialText "Third", false, true⟩)
    (sampleCollection ⟨.byExactText "Third", true, true⟩)
    "html" (.locator "css selector" "ol > li") (.locator "css selector" "ol > li")
    ["First", "Second", "Third", "Third Third", "Last"] "Third"
    (fun _ _ => rfl) rfl (by decide) rfl rfl (fun _ _ => rfl) rfl (by decide) rfl rfl

/-! ## Bounds outside the collection -/

/-- C18: when the root collection is an array of length `L`, the
`byRangeBetween` branch returns an array for all integers `a` and `b`, never an
error: the first `b` elements without the first `a - 1`, with
`max 0 (min b L - max a 1 + 1)` elements. It is empty when `a > b` or `a > L`,
and it runs to the end of the collection when `b ≥ L`. -/
theorem rangeBetween_clamps {H : Type} (driver : Driver H) (frameworkElement : Frame H)
    (elementDefiniton : Definition) (token : Token) (collection : List H) (a b : Int)
    (hroot : getRootElement driver frameworkElement elementDefiniton = .ok (.array collection))
    (htoken : elementDefiniton.token = some token)
    (htype : token.type = .byRangeBetween a b) :
    getElementFromCollectionByIndex driver frameworkElement elementDefiniton
        = .ok (.array ((collection.take b.toNat).drop (a - 1).toNat))
      ∧ (((collection.take b.toNat).drop (a - 1).toNat).length : Int)
          = max 0 (min b (collection.length : Int) - max a 1 + 1)
      ∧ ((b < a ∨ (collection.length : Int) < a) →
          (collection.take b.toNat).drop (a - 1).toNat = [])
      ∧ ((collection.length : Int) ≤ b →
          (collection.take b.toNat).drop (a - 1).toNat = collection.drop (a - 1).toNat) := by
  have hlen : ((collection.take b.toNat).drop (a - 1).toNat).length
      = min b.toNat collection.length - (a - 1).toNat := by
    rw [List.length_drop, List.length_take]
  refine ⟨?_, ?_, ?_, ?_⟩
  · have h1 : (b - ((0 : Nat) : Int)).toNat = b.toNat := by simp
    have h2 : (a - 1 - ((0 : Nat) : Int)).toNat = (a - 1).toNat := by simp
    unfold getElementFromCollectionByIndex
    rw [hroot]
    simp only [htoken, htype, getElementsFromCollectionByIndexFilter, arrayFilter]
    rw [filterFrom_between, h1, h2]
  · rw [hlen]
    omega
  · intro h
    apply List.eq_nil_of_length_eq_zero
    rw [hlen]
    omega
  · intro h
    rw [List.take_of_length_le (by omega)]

theorem rangeBetween_clamps_witness :
    getElementFromCollectionByIndex samplePage (.value (.element "html"))
        (sampleCollection ⟨.byRangeBetween 4 9, false, false⟩)
        = .ok (.array ((["First", "Second", "Third", "Third Third", "Last"].take
            (9 : Int).toNat).drop ((4 : Int) - 1).toNat))
      ∧ ((((["First", "Second", "Third", "Third Third", "Last"].take
            (9 : Int).toNat).drop ((4 : Int) - 1).toNat).length : Int)
          = max 0 (min 9 (["First", "Second", "Third", "Third Third", "Last"].length : Int)
              - max 4 1 + 1))
      ∧ (((9 : Int) < 4
            ∨ (["First", "Second", "Third", "Third Third", "Last"].length : Int) < 4) →
          (["First", "Second", "Third", "Third Third", "Last"].take
            (9 : Int).toNat).drop ((4 : Int) - 1).toNat = [])
      ∧ ((["First", "Second", "Third", "Third Third", "Last"].length : Int) ≤ 9 →
          (["First", "Second", "Third", "Third Third", "Last"].take
            (9 : Int).toNat).drop ((4 : Int) - 1).toNat
            = ["First", "Second", "Third", "Third Third", "Last"].drop ((4 : Int) - 1).toNat) :=
  rangeBetween_clamps samplePage (.value (.element "html"))
    (sampleCollection ⟨.byRangeBetween 4 9, false, false⟩)
    ⟨.byRangeBetween 4 9, false, false⟩
    ["First", "Second", "Third", "Third Third", "Last"] 4 9 rfl rfl rfl

end SeleniumPage
